import Mathlib

/-!
# Verification of the dazuukiknie-agent usage tracker

This file gives a shallow embedding, in Lean 4, of the core of the
dazuukiknie-agent repository (Go): the session-aggregation state machine of
`trackForegroundWindow`, the detach-then-flush persistence protocol
(`saveAppUsageToFile` together with the save handlers), the Steam account
extractor `extractUsers`, and the foreground-window inspector functions of
`windows.go`.  Timestamps are Go `int64` values; the code performs no
arithmetic on them (only assignment and comparison), so they are embedded as
`Int`.  Effectful library and OS calls (file writes, JSON marshalling, the
Windows API, the regexp engine) are modelled by explicit environment records
carrying the outcome of each call, and the file writes a run performs are
returned as an explicit event list.
-/

/-- One record of the session log, mirroring the Go struct `AppUsageEntry`
with fields `AppName`, `ExecutablePath`, `Start`, `End` (Unix seconds). -/
structure AppUsageEntry where
  AppName : String
  ExecutablePath : String
  Start : Int
  End : Int
deriving DecidableEq, Repr

/-- The mutable state of the tracker: the shared list `appUsageList` (the
global guarded by `appUsageMutex`) and the loop-local variable
`lastExePath` of `trackForegroundWindow`. -/
structure TrackerState where
  appUsageList : List AppUsageEntry
  lastExePath : String
deriving DecidableEq, Repr

/-- The state at program start: empty session list, `lastExePath = ""`. -/
def initialState : TrackerState := { appUsageList := [], lastExePath := "" }

/-- One observation of the polling loop: the tick time `now`
(`time.Now().Unix()`), the window title and the executable path reported by
the inspector for this tick. -/
structure Tick where
  now : Int
  title : String
  exePath : String
deriving DecidableEq, Repr

/-- The Go statement `appUsageList[len(appUsageList)-1].End = now`, guarded
by `len(appUsageList) > 0`: set the `End` field of the last entry, leaving
an empty list unchanged. -/
def setLastEnd : List AppUsageEntry → Int → List AppUsageEntry
  | [], _ => []
  | [e], now => [{ e with End := now }]
  | e :: e' :: es, now => e :: setLastEnd (e' :: es) now

/-- The locked block of one iteration of `trackForegroundWindow` (the
if/else-if chain on `currentExePath`): on a changed non-empty path, close
the trailing entry at `now` and append a fresh entry starting and ending at
`now`; on an unchanged non-empty path, extend the trailing entry (if any);
on an empty path, extend the trailing entry (if any) and reset
`lastExePath`.  When the path is non-empty, equal to `lastExePath`, and the
list is empty, no branch of the chain applies and the state is unchanged. -/
def trackTick (t : Tick) (s : TrackerState) : TrackerState :=
  if t.exePath ≠ "" ∧ t.exePath ≠ s.lastExePath then
    { appUsageList := setLastEnd s.appUsageList t.now ++
        [{ AppName := t.title, ExecutablePath := t.exePath,
           Start := t.now, End := t.now }],
      lastExePath := t.exePath }
  else if t.exePath ≠ "" ∧ s.appUsageList ≠ [] then
    { s with appUsageList := setLastEnd s.appUsageList t.now }
  else if t.exePath = "" then
    { appUsageList := setLastEnd s.appUsageList t.now, lastExePath := "" }
  else
    s

/-- Run the polling loop over a list of observations, oldest first. -/
def trackSteps (s : TrackerState) : List Tick → TrackerState
  | [] => s
  | t :: ts => trackSteps (trackTick t s) ts

/-- The detach performed under the lock by the auto-save branch and by the
manual-save and exit-save handlers: copy `appUsageList` into `listToSave`
and set the shared list to `nil`; `lastExePath` is a loop-local variable of
`trackForegroundWindow` and is not touched. -/
def detachAll (s : TrackerState) : List AppUsageEntry × TrackerState :=
  (s.appUsageList, { s with appUsageList := [] })

/-- Test whether an `Except` result is the error case. -/
def isErr {ε α : Type} : Except ε α → Bool
  | Except.error _ => true
  | Except.ok _ => false

/-- A file write performed by `saveAppUsageToFile`, carrying the
destination path and the serialized content. -/
inductive FileWrite where
  | steamInfoFile (path : String) (content : String)
  | sessionLogFile (path : String) (content : String)
deriving DecidableEq, Repr

/-- Outcomes of the effectful library and OS calls made by one run of
`saveAppUsageToFile`: the result of `os.Executable`, of `buildSteamInfo`,
of the `os.WriteFile` for `steaminfo.json`, of `json.MarshalIndent` on the
flattened entry list, and of the `os.WriteFile` for the timestamped session
log, plus the formatted wall-clock time used in the file name. -/
structure SaveEnv where
  executableResult : Except String String
  buildSteamInfoResult : Except String String
  writeSteamInfoResult : Except String Unit
  marshalResult : Except String String
  nowFormatted : String
  writeSessionLogResult : Except String Unit

/-- The Go function `saveAppUsageToFile(listToSave)`: returns the list of
file writes attempted and the error result.  An empty `listToSave` returns
`nil` at once, before any file activity.  Otherwise the Steam-info step
runs first — a `buildSteamInfo` failure is only logged, and a failure of
the `steaminfo.json` write is only logged — then the flattened list is
marshalled (an error there is returned) and written to the timestamped
session-log file (an error there is returned).  The shared list is not
touched here; clearing happens in the callers.  The Go loop that flattens
`[]*AppUsageEntry`, skipping `nil` pointers, is the identity in this
embedding, which has no null pointers. -/
def saveAppUsageToFile (listToSave : List AppUsageEntry) (env : SaveEnv) :
    List FileWrite × Except String Unit :=
  if listToSave = [] then
    ([], Except.ok ())
  else
    let exPath : String :=
      match env.executableResult with
      | Except.error _ => "."
      | Except.ok dir => dir
    let steamWrites : List FileWrite :=
      match env.buildSteamInfoResult with
      | Except.error _ => []
      | Except.ok steamInfo =>
          [FileWrite.steamInfoFile (exPath ++ "/steaminfo.json") steamInfo]
    match env.marshalResult with
    | Except.error e =>
        (steamWrites, Except.error ("failed to marshal app usage data: " ++ e))
    | Except.ok jsonData =>
        (steamWrites ++
          [FileWrite.sessionLogFile (exPath ++ "/" ++ env.nowFormatted ++ ".json") jsonData],
         match env.writeSessionLogResult with
         | Except.error e =>
             Except.error ("failed to write app usage file: " ++ e)
         | Except.ok _ => Except.ok ())

/-- Whether an attempt to write the primary session-log file is among the
performed writes. -/
def wroteSessionLog (writes : List FileWrite) : Bool :=
  writes.any fun w =>
    match w with
    | FileWrite.sessionLogFile _ _ => true
    | FileWrite.steamInfoFile _ _ => false

/-- The detach-then-flush protocol shared by the auto-save branch of
`trackForegroundWindow` and by the manual-save and exit-save handlers:
under the lock, copy `appUsageList` and set it to `nil`; after unlocking,
call `saveAppUsageToFile` on the copy.  The flush result does not feed back
into the state: a failed save never restores the detached entries. -/
def detachAndSave (s : TrackerState) (env : SaveEnv) :
    TrackerState × List FileWrite × Except String Unit :=
  let d := detachAll s
  let r := saveAppUsageToFile d.1 env
  (d.2, r.1, r.2)

/-- A Steam user record as extracted from `loginusers.vdf`, mirroring the
Go struct `User`. -/
structure User where
  SteamID : String
  AccountName : String
  PersonaName : String
deriving DecidableEq, Repr

/-- The Go function `extractUsers` of `steam.go`, from the point after the
constant user pattern has been compiled (compilation of that fixed, valid
pattern never fails).  The argument models the result of
`regexp.FindAllStringSubmatch`: `none` is the `nil` slice returned when the
content has no match of the pattern, `some ms` the list of submatch lists
(full match at index 0, then the `SteamID`, `AccountName` and `PersonaName`
groups at indices 1, 2, 3, the indices the subexpression-name map resolves
to).  A `nil` result returns the empty user list with no error; otherwise
each match long enough to hold the `PersonaName` group yields a user and
shorter regexMatches are skipped with a warning. -/
def extractUsers (regexMatches : Option (List (List String))) :
    Except String (List User) :=
  match regexMatches with
  | none => Except.ok []
  | some ms =>
      Except.ok (ms.foldl
        (fun users m =>
          if 3 < m.length then
            users ++ [{ SteamID := m.getD 1 "", AccountName := m.getD 2 "",
                        PersonaName := m.getD 3 "" }]
          else users)
        [])

/-- Outcomes of the Windows API calls made by the inspector functions of
`windows.go`: for each raw call, its return value and its errno (`0` plays
the role of `ERROR_SUCCESS`, matching the Go test
`err != nil && err.(syscall.Errno) != 0`). -/
structure WinApiEnv where
  gfwResult : Nat
  gfwErrno : Int
  gwtpidResult : Nat
  gwtpidErrno : Int
  openProcessResult : Except String Nat
  qfpinRet : Nat
  qfpinErrno : Int
  qfpinBuffer : String
  fallbackRet : Nat
  fallbackErrno : Int
  fallbackBuffer : String
  gwtLenRet : Nat
  gwtLenErrno : Int
  gwtRet : Nat
  gwtErrno : Int
  gwtBuffer : String

/-- The function `getActiveWindowExecutablePath` of `windows.go`: a real
errno from `GetForegroundWindow` is an error; a zero window handle returns
the empty string with no error; then the process id, the process handle,
and the image name are resolved in turn, with the
`K32GetModuleFileNameExW` fallback tried when `QueryFullProcessImageNameW`
returns zero with a real errno. -/
def getActiveWindowExecutablePath (env : WinApiEnv) : Except String String :=
  if env.gfwErrno ≠ 0 then
    Except.error "GetForegroundWindow failed"
  else if env.gfwResult = 0 then
    Except.ok ""
  else if env.gwtpidErrno ≠ 0 then
    Except.error "GetWindowThreadProcessId failed"
  else if env.gwtpidResult = 0 then
    Except.error "could not get process ID"
  else
    match env.openProcessResult with
    | Except.error e => Except.error ("OpenProcess failed: " ++ e)
    | Except.ok _ =>
        if env.qfpinRet = 0 then
          if env.qfpinErrno ≠ 0 then
            if env.fallbackRet = 0 then
              if env.fallbackErrno ≠ 0 then
                Except.error "GetModuleFileNameExW fallback failed"
              else
                Except.error "GetModuleFileNameExW fallback failed with zero return"
            else
              Except.ok env.fallbackBuffer
          else
            Except.error "QueryFullProcessImageNameW failed with zero return"
        else
          Except.ok env.qfpinBuffer

/-- The function `getForegroundWindowText` of `windows.go`: a real errno
from `GetForegroundWindow` is an error; a zero window handle returns the
empty string with no error; every failure of the two `GetWindowTextW`
calls (length query and text fetch) degrades to an empty title with no
error. -/
def getForegroundWindowText (env : WinApiEnv) : Except String String :=
  if env.gfwErrno ≠ 0 then
    Except.error "GetForegroundWindow failed"
  else if env.gfwResult = 0 then
    Except.ok ""
  else if env.gwtLenRet = 0 then
    Except.ok ""
  else if env.gwtRet = 0 then
    Except.ok ""
  else
    Except.ok env.gwtBuffer

/-- Boolean chain condition: starting from the bound `b`, the tick times of
the list are non-decreasing. -/
def chainFrom (b : Int) : List Tick → Bool
  | [] => true
  | t :: ts => (decide (b ≤ t.now)) && chainFrom t.now ts

/-- The tick times of the list are non-decreasing. -/
def ticksNondec : List Tick → Bool
  | [] => true
  | t :: ts => chainFrom t.now ts

/-- The time of the last tick of the list, or `b` for the empty list. -/
def endBound (b : Int) : List Tick → Int
  | [] => b
  | t :: ts => endBound t.now ts

/-- Number of positions at which the value differs from its predecessor,
the predecessor of the head being `p`. -/
def countRuns (p : String) : List String → Nat
  | [] => 0
  | x :: xs => (if x = p then 0 else 1) + countRuns x xs

/-- Number of maximal runs of equal consecutive values of a list. -/
def numRuns : List String → Nat
  | [] => 0
  | x :: xs => 1 + countRuns x xs

/-- Well-formedness of a session list relative to a time bound: every entry
satisfies `Start ≤ End` and ends no later than the bound. -/
def entriesWF (l : List AppUsageEntry) (bound : Int) : Prop :=
  ∀ e ∈ l, e.Start ≤ e.End ∧ e.End ≤ bound

theorem trackTick_new (t : Tick) (s : TrackerState)
    (h1 : t.exePath ≠ "") (h2 : t.exePath ≠ s.lastExePath) :
    trackTick t s =
      { appUsageList := setLastEnd s.appUsageList t.now ++
          [{ AppName := t.title, ExecutablePath := t.exePath,
             Start := t.now, End := t.now }],
        lastExePath := t.exePath } := by
  simp [trackTick, h1, h2]

theorem trackTick_same (t : Tick) (s : TrackerState)
    (h1 : t.exePath ≠ "") (h2 : t.exePath = s.lastExePath)
    (h3 : s.appUsageList ≠ []) :
    trackTick t s = { s with appUsageList := setLastEnd s.appUsageList t.now } := by
  simp only [trackTick, h2]
  rw [if_neg (by simp), if_pos ⟨h2 ▸ h1, h3⟩]

theorem trackTick_same_empty (t : Tick) (s : TrackerState)
    (h1 : t.exePath ≠ "") (h2 : t.exePath = s.lastExePath)
    (h3 : s.appUsageList = []) :
    trackTick t s = s := by
  simp only [trackTick, h2]
  rw [if_neg (by simp), if_neg (by simp [h3]), if_neg (by simpa [h2] using h1)]

theorem trackTick_idle (t : Tick) (s : TrackerState) (h : t.exePath = "") :
    trackTick t s =
      { appUsageList := setLastEnd s.appUsageList t.now, lastExePath := "" } := by
  simp [trackTick, h]

theorem setLastEnd_length (l : List AppUsageEntry) (n : Int) :
    (setLastEnd l n).length = l.length := by
  induction l with
  | nil => rfl
  | cons e es ih =>
    cases es with
    | nil => rfl
    | cons e' es' => simpa [setLastEnd] using ih

theorem mem_setLastEnd {e : AppUsageEntry} {l : List AppUsageEntry} {n : Int}
    (h : e ∈ setLastEnd l n) :
    ∃ e₀ ∈ l, e = e₀ ∨ e = { e₀ with End := n } := by
  induction l with
  | nil => simp [setLastEnd] at h
  | cons e₁ es ih =>
    cases es with
    | nil =>
      simp [setLastEnd] at h
      exact ⟨e₁, by simp, Or.inr h⟩
    | cons e' es' =>
      simp only [setLastEnd, List.mem_cons] at h
      rcases h with h | h
      · exact ⟨e₁, by simp, Or.inl h⟩
      · rcases ih h with ⟨e₀, he₀, hor⟩
        exact ⟨e₀, by simp [he₀], hor⟩

theorem setLastEnd_getElem? (l : List AppUsageEntry) (n : Int) (i : Nat) :
    (setLastEnd l n)[i]? =
      if i + 1 = l.length then Option.map (fun e => { e with End := n }) l[i]?
      else l[i]? := by
  induction l generalizing i with
  | nil => simp [setLastEnd]
  | cons e₁ es ih =>
    cases es with
    | nil =>
      cases i with
      | zero => simp [setLastEnd]
      | succ j => simp [setLastEnd]
    | cons e' es' =>
      cases i with
      | zero => simp [setLastEnd]
      | succ j =>
        have := ih (i := j)
        simp only [setLastEnd, List.getElem?_cons_succ, List.length_cons]
        rw [this]
        have hiff : (j + 1 = (e' :: es').length) ↔ (j + 1 + 1 = es'.length + 1 + 1) := by
          simp
        by_cases hj : j + 1 = (e' :: es').length
        · rw [if_pos hj, if_pos (hiff.mp hj)]
        · rw [if_neg hj, if_neg (fun hc => hj (hiff.mpr hc))]

theorem trackSteps_append (s : TrackerState) (l₁ l₂ : List Tick) :
    trackSteps s (l₁ ++ l₂) = trackSteps (trackSteps s l₁) l₂ := by
  induction l₁ generalizing s with
  | nil => rfl
  | cons t ts ih =>
    show trackSteps (trackTick t s) (ts ++ l₂) = _
    exact ih (trackTick t s)

theorem entriesWF_mono {l : List AppUsageEntry} {b b' : Int}
    (hb : b ≤ b') (h : entriesWF l b) : entriesWF l b' :=
  fun e he => ⟨(h e he).1, le_trans (h e he).2 hb⟩

theorem entriesWF_setLastEnd {l : List AppUsageEntry} {now : Int}
    (h : entriesWF l now) : entriesWF (setLastEnd l now) now := by
  intro e he
  rcases mem_setLastEnd he with ⟨e₀, he₀, h1 | h1⟩
  · rw [h1]
    exact h e₀ he₀
  · rw [h1]
    exact ⟨le_trans (h e₀ he₀).1 (h e₀ he₀).2, le_refl now⟩

theorem trackTick_wf (t : Tick) (s : TrackerState) {bound : Int}
    (hb : bound ≤ t.now) (h : entriesWF s.appUsageList bound) :
    entriesWF (trackTick t s).appUsageList t.now := by
  have h' : entriesWF s.appUsageList t.now := entriesWF_mono hb h
  by_cases h1 : t.exePath = ""
  · rw [trackTick_idle t s h1]
    exact entriesWF_setLastEnd h'
  · by_cases h2 : t.exePath = s.lastExePath
    · by_cases h3 : s.appUsageList = []
      · rw [trackTick_same_empty t s h1 h2 h3]
        exact h'
      · rw [trackTick_same t s h1 h2 h3]
        exact entriesWF_setLastEnd h'
    · rw [trackTick_new t s h1 h2]
      intro e he
      rcases List.mem_append.mp he with he | he
      · exact entriesWF_setLastEnd h' e he
      · rcases List.mem_singleton.mp he with rfl
        exact ⟨le_refl t.now, le_refl t.now⟩

theorem trackSteps_wf (ts : List Tick) (s : TrackerState) (bound : Int)
    (hc : chainFrom bound ts = true) (h : entriesWF s.appUsageList bound) :
    entriesWF (trackSteps s ts).appUsageList (endBound bound ts) := by
  induction ts generalizing s bound with
  | nil => exact h
  | cons t ts ih =>
    simp only [chainFrom, Bool.and_eq_true, decide_eq_true_eq] at hc
    exact ih (trackTick t s) t.now hc.2 (trackTick_wf t s hc.1 h)

theorem chainFrom_append {b : Int} {l₁ l₂ : List Tick}
    (h : chainFrom b (l₁ ++ l₂) = true) :
    chainFrom b l₁ = true ∧ chainFrom (endBound b l₁) l₂ = true := by
  induction l₁ generalizing b with
  | nil => exact ⟨rfl, h⟩
  | cons t ts ih =>
    simp only [List.cons_append, chainFrom, Bool.and_eq_true] at h ⊢
    exact ⟨⟨h.1, (ih h.2).1⟩, (ih h.2).2⟩

theorem chainFrom_head {b : Int} {t : Tick} {ts : List Tick}
    (h : chainFrom b (t :: ts) = true) : b ≤ t.now := by
  simp only [chainFrom, Bool.and_eq_true, decide_eq_true_eq] at h
  exact h.1

theorem trackTick_end_mono (t : Tick) (s : TrackerState)
    (hE : ∀ e ∈ s.appUsageList, e.End ≤ t.now) (i : Nat)
    {e e' : AppUsageEntry} (he : s.appUsageList[i]? = some e)
    (he' : (trackTick t s).appUsageList[i]? = some e') : e.End ≤ e'.End := by
  have hi : i < s.appUsageList.length := by
    by_contra hc
    rw [List.getElem?_eq_none (by omega)] at he
    exact Option.noConfusion he
  have hmem : e ∈ s.appUsageList := by
    have := List.getElem?_eq_some.mp he
    rcases this with ⟨hlt, hget⟩
    exact hget ▸ List.getElem_mem hlt
  have hset : ∀ e'', (setLastEnd s.appUsageList t.now)[i]? = some e'' → e.End ≤ e''.End := by
    intro e'' hget
    rw [setLastEnd_getElem? s.appUsageList t.now i] at hget
    by_cases hcond : i + 1 = s.appUsageList.length
    · rw [if_pos hcond, he] at hget
      have hupd : ({ e with End := t.now } : AppUsageEntry) = e'' := by
        simpa using hget
      rw [← hupd]
      exact hE e hmem
    · rw [if_neg hcond, he] at hget
      rw [← Option.some.inj hget]
  by_cases h1 : t.exePath = ""
  · rw [trackTick_idle t s h1] at he'
    exact hset e' he'
  · by_cases h2 : t.exePath = s.lastExePath
    · by_cases h3 : s.appUsageList = []
      · exact absurd hi (by simp [h3])
      · rw [trackTick_same t s h1 h2 h3] at he'
        exact hset e' he'
    · rw [trackTick_new t s h1 h2] at he'
      simp only at he'
      rw [List.getElem?_append,
        if_pos (by rw [setLastEnd_length]; exact hi)] at he'
      exact hset e' he'

theorem trackSteps_length (ts : List Tick) (s : TrackerState)
    (h : ∀ t ∈ ts, t.exePath ≠ "") :
    (trackSteps s ts).appUsageList.length
      = s.appUsageList.length + countRuns s.lastExePath (ts.map Tick.exePath) := by
  induction ts generalizing s with
  | nil => simp [trackSteps, countRuns]
  | cons t ts ih =>
    have ht : t.exePath ≠ "" := h t (by simp)
    have hts : ∀ u ∈ ts, u.exePath ≠ "" := fun u hu => h u (by simp [hu])
    show (trackSteps (trackTick t s) ts).appUsageList.length = _
    rw [ih (trackTick t s) hts]
    by_cases h2 : t.exePath = s.lastExePath
    · by_cases h3 : s.appUsageList = []
      · rw [trackTick_same_empty t s ht h2 h3]
        simp [countRuns, h2]
      · rw [trackTick_same t s ht h2 h3]
        simp [countRuns, h2, setLastEnd_length]
    · rw [trackTick_new t s ht h2]
      simp only [List.map_cons, countRuns, if_neg h2, List.length_append,
        setLastEnd_length, List.length_singleton]
      omega

theorem countRuns_of_head_ne {p : String} {l : List String}
    (h : ∀ x ∈ l.head?, x ≠ p) : countRuns p l = numRuns l := by
  cases l with
  | nil => rfl
  | cons x xs =>
    have hx : x ≠ p := h x rfl
    simp [countRuns, numRuns, hx]

theorem numRuns_eq_length_destutter (l : List String) :
    numRuns l = (l.destutter (fun a b => ¬ a = b)).length := by
  have key : ∀ (xs : List String) (a : String),
      (List.destutter' (fun a b => ¬ a = b) a xs).length = 1 + countRuns a xs := by
    intro xs
    induction xs with
    | nil => intro a; rfl
    | cons x xs ih =>
      intro a
      by_cases hax : a = x
      · rw [List.destutter']
        rw [if_neg (by simpa using hax)]
        simp [countRuns, hax, ih x]
      · rw [List.destutter']
        rw [if_pos (by simpa using hax)]
        simp only [List.length_cons, countRuns, ih x]
        rw [if_neg (fun hc => hax hc.symm)]
        omega
  cases l with
  | nil => rfl
  | cons x xs =>
    show numRuns (x :: xs) = (List.destutter' (fun a b => ¬ a = b) x xs).length
    rw [key xs x]
    rfl

theorem trackTick_mem {e : AppUsageEntry} (t : Tick) (s : TrackerState)
    (h : e ∈ (trackTick t s).appUsageList) :
    (∃ e₀ ∈ s.appUsageList, e = e₀ ∨ e = { e₀ with End := t.now }) ∨
      (e.AppName = t.title ∧ e.ExecutablePath = t.exePath ∧ e.Start = t.now) := by
  by_cases h1 : t.exePath = ""
  · rw [trackTick_idle t s h1] at h
    exact Or.inl (mem_setLastEnd h)
  · by_cases h2 : t.exePath = s.lastExePath
    · by_cases h3 : s.appUsageList = []
      · rw [trackTick_same_empty t s h1 h2 h3] at h
        exact Or.inl ⟨e, h, Or.inl rfl⟩
      · rw [trackTick_same t s h1 h2 h3] at h
        exact Or.inl (mem_setLastEnd h)
    · rw [trackTick_new t s h1 h2] at h
      simp only at h
      rcases List.mem_append.mp h with h | h
      · exact Or.inl (mem_setLastEnd h)
      · rcases List.mem_singleton.mp h with h
        exact Or.inr (by rw [h]; exact ⟨rfl, rfl, rfl⟩)

theorem trackSteps_mem {e : AppUsageEntry} (ts : List Tick) (s : TrackerState)
    (h : e ∈ (trackSteps s ts).appUsageList) :
    (∃ e₀ ∈ s.appUsageList, e.AppName = e₀.AppName ∧
        e.ExecutablePath = e₀.ExecutablePath ∧ e.Start = e₀.Start) ∨
      ∃ t ∈ ts, e.AppName = t.title ∧ e.ExecutablePath = t.exePath ∧
        e.Start = t.now := by
  induction ts generalizing s with
  | nil => exact Or.inl ⟨e, h, rfl, rfl, rfl⟩
  | cons t ts ih =>
    rcases ih (trackTick t s) h with ⟨e₀, he₀, hfields⟩ | ⟨u, hu, hfields⟩
    · rcases trackTick_mem t s he₀ with ⟨e₁, he₁, heq | heq⟩ | hnew
      · exact Or.inl ⟨e₁, he₁, by rw [heq] at hfields; exact hfields⟩
      · exact Or.inl ⟨e₁, he₁, by rw [heq] at hfields; exact hfields⟩
      · exact Or.inr ⟨t, by simp, hfields.1.trans hnew.1,
          hfields.2.1.trans hnew.2.1, hfields.2.2.trans hnew.2.2⟩
    · exact Or.inr ⟨u, by simp [hu], hfields⟩

/-- Spec scenario A: three ticks with the same executable fold into a
single session spanning the three tick times. -/
theorem scenarioA_single_session :
    (trackSteps initialState
      [⟨0, "a", "A.exe"⟩, ⟨10, "a", "A.exe"⟩, ⟨20, "a", "A.exe"⟩]).appUsageList
      = [⟨"a", "A.exe", 0, 20⟩] := by decide

/-- Spec scenario B: a switch of executable at t=10 closes the first session
at 10 and opens the second one there. -/
theorem scenarioB_two_sessions :
    (trackSteps initialState
      [⟨0, "a", "A.exe"⟩, ⟨10, "b", "B.exe"⟩, ⟨20, "b", "B.exe"⟩]).appUsageList
      = [⟨"a", "A.exe", 0, 10⟩, ⟨"b", "B.exe", 10, 20⟩] := by decide

/-- C1 counterexample: after one tick on `A.exe` and a detach, the detached
state still carries `lastExePath = "A.exe"` with an empty session list, and
a following tick that reports the same non-empty executable path leaves the
session list empty — no fresh `UsageSession` is created and no
`endTimestamp` is updated, so the observation is silently lost, contrary to
the claim. -/
theorem c1_tick_after_detach_counterexample :
    ((detachAll (trackSteps initialState [⟨0, "a", "A.exe"⟩])).2).lastExePath = "A.exe" ∧
      ((detachAll (trackSteps initialState [⟨0, "a", "A.exe"⟩])).2).appUsageList = [] ∧
      (trackTick ⟨10, "a", "A.exe"⟩
        (detachAll (trackSteps initialState [⟨0, "a", "A.exe"⟩])).2).appUsageList = [] := by
  decide

/-- C1 amended: after a detach, a tick that reports the same non-empty
executable path as the tick before the detach creates no session and
leaves the tracker state unchanged: the path equals `lastExePath` while the
session list is empty, so no branch of the tick applies and the observation
is silently dropped until a different or empty path is observed. -/
theorem c1_tick_after_detach_amended (s : TrackerState) (t : Tick)
    (hpath : t.exePath = s.lastExePath) (hne : t.exePath ≠ "") :
    trackTick t (detachAll s).2 = (detachAll s).2 :=
  trackTick_same_empty t (detachAll s).2 hne hpath rfl

/-- Witness for the amended C1 theorem at the concrete state
`{appUsageList := [], lastExePath := "A.exe"}` and a tick on `A.exe`. -/
theorem c1_tick_after_detach_amended_witness :
    (Tick.mk 10 "a" "A.exe").exePath = (TrackerState.mk [] "A.exe").lastExePath ∧
      (Tick.mk 10 "a" "A.exe").exePath ≠ "" ∧
      trackTick (Tick.mk 10 "a" "A.exe") (detachAll (TrackerState.mk [] "A.exe")).2
        = (detachAll (TrackerState.mk [] "A.exe")).2 :=
  ⟨rfl, by decide,
    c1_tick_after_detach_amended (TrackerState.mk [] "A.exe") (Tick.mk 10 "a" "A.exe")
      rfl (by decide)⟩

/-- The tick sequence of spec scenario C: t=0 on `A.exe`, t=10 with no
focused window, t=20 on `A.exe` again. -/
def scenarioCTicks : List Tick := [⟨0, "a", "A.exe"⟩, ⟨10, "", ""⟩, ⟨20, "a", "A.exe"⟩]

/-- C2 counterexample: on scenario C the resulting list is not the claimed
pair of sessions ending at 10 and 20 — the first session does not keep
`endTimestamp = 10`. -/
theorem c2_scenarioC_counterexample :
    ¬ ((trackSteps initialState scenarioCTicks).appUsageList.map
          (fun e => (e.ExecutablePath, e.Start, e.End))
        = [("A.exe", (0 : Int), (10 : Int)), ("A.exe", 20, 20)]) := by
  decide

/-- C2 amended: scenario C yields exactly two sessions for `A.exe`, not
merged, but the first one ends at 20, not 10: when the new session opens at
t=20 the changed-path branch first bumps the trailing session's
`endTimestamp` to `now`, re-extending the session the idle tick had closed
at 10.  The result is `{A.exe, 0, 20}` and `{A.exe, 20, 20}`. -/
theorem c2_scenarioC_amended :
    (trackSteps initialState scenarioCTicks).appUsageList.map
        (fun e => (e.ExecutablePath, e.Start, e.End))
      = [("A.exe", (0 : Int), (20 : Int)), ("A.exe", 20, 20)] := by
  decide

/-- C3: starting from the initial empty state, for a tick sequence whose
observed executable paths are all non-empty (and with no detach), the
number of `UsageSession` entries created — the final length of the list,
since ticks never remove entries — equals the number of maximal runs of
equal consecutive executable paths (`numRuns`, which agrees with the length
of `List.destutter` over inequality by `numRuns_eq_length_destutter`). -/
theorem c3_sessions_eq_runs (ts : List Tick)
    (h : ∀ t ∈ ts, t.exePath ≠ "") :
    (trackSteps initialState ts).appUsageList.length
      = numRuns (ts.map Tick.exePath) := by
  rw [trackSteps_length ts initialState h]
  show 0 + countRuns "" (ts.map Tick.exePath) = _
  rw [Nat.zero_add]
  apply countRuns_of_head_ne
  intro x hx
  cases ts with
  | nil => simp at hx
  | cons t ts' =>
    simp only [List.map_cons, List.head?_cons, Option.mem_def,
      Option.some.injEq] at hx
    rw [← hx]
    exact h t (by simp)

/-- Witness for C3 at a concrete all-non-empty tick sequence with three
maximal runs. -/
theorem c3_sessions_eq_runs_witness :
    (∀ t ∈ [Tick.mk 0 "a" "A.exe", Tick.mk 1 "a" "A.exe", Tick.mk 2 "b" "B.exe",
        Tick.mk 3 "a" "A.exe"], t.exePath ≠ "") ∧
      (trackSteps initialState [Tick.mk 0 "a" "A.exe", Tick.mk 1 "a" "A.exe",
          Tick.mk 2 "b" "B.exe", Tick.mk 3 "a" "A.exe"]).appUsageList.length
        = numRuns ([Tick.mk 0 "a" "A.exe", Tick.mk 1 "a" "A.exe",
            Tick.mk 2 "b" "B.exe", Tick.mk 3 "a" "A.exe"].map Tick.exePath) :=
  ⟨by decide, c3_sessions_eq_runs _ (by decide)⟩

/-- C4: for every tick sequence with non-decreasing tick times, after every
tick (that is, after every decomposition of the sequence into a processed
part and a rest) every entry of the session list satisfies
`Start ≤ End`, and one further tick never decreases the `End` field of an
entry already at a given position of the list (entries are only appended,
so positions identify sessions across updates). -/
theorem c4_start_le_end_and_end_mono (ts : List Tick)
    (h : ticksNondec ts = true) :
    (∀ pre suf, ts = pre ++ suf →
        ∀ e ∈ (trackSteps initialState pre).appUsageList, e.Start ≤ e.End) ∧
      (∀ pre t suf, ts = pre ++ t :: suf →
        ∀ (i : Nat) (e e' : AppUsageEntry),
          (trackSteps initialState pre).appUsageList[i]? = some e →
          (trackSteps initialState (pre ++ [t])).appUsageList[i]? = some e' →
          e.End ≤ e'.End) := by
  constructor
  · intro pre suf hts e he
    cases pre with
    | nil =>
      simp [trackSteps, initialState] at he
    | cons t₀ pre' =>
      rw [hts] at h
      have hchain : chainFrom t₀.now (pre' ++ suf) = true := h
      have hpre : chainFrom t₀.now pre' = true := (chainFrom_append hchain).1
      have hc : chainFrom t₀.now (t₀ :: pre') = true := by
        simp [chainFrom, hpre]
      have hvac : entriesWF initialState.appUsageList t₀.now := by
        intro x hx
        simp [initialState] at hx
      exact (trackSteps_wf (t₀ :: pre') initialState t₀.now hc hvac e he).1
  · intro pre t suf hts i e e' he he'
    rw [trackSteps_append initialState pre [t]] at he'
    have hE : ∀ x ∈ (trackSteps initialState pre).appUsageList, x.End ≤ t.now := by
      cases pre with
      | nil =>
        intro x hx
        simp [trackSteps, initialState] at hx
      | cons t₀ pre' =>
        rw [hts] at h
        have hchain : chainFrom t₀.now (pre' ++ t :: suf) = true := h
        have hpre : chainFrom t₀.now pre' = true := (chainFrom_append hchain).1
        have hEnd : endBound t₀.now pre' ≤ t.now :=
          chainFrom_head (chainFrom_append hchain).2
        have hc : chainFrom t₀.now (t₀ :: pre') = true := by
          simp [chainFrom, hpre]
        have hvac : entriesWF initialState.appUsageList t₀.now := by
          intro x hx
          simp [initialState] at hx
        intro x hx
        exact le_trans
          (trackSteps_wf (t₀ :: pre') initialState t₀.now hc hvac x hx).2 hEnd
    exact trackTick_end_mono t (trackSteps initialState pre) hE i he he'

/-- Witness for C4 at a concrete non-decreasing two-tick sequence. -/
theorem c4_start_le_end_and_end_mono_witness :
    ticksNondec [Tick.mk 0 "a" "A.exe", Tick.mk 5 "b" "B.exe"] = true ∧
      ((∀ pre suf, [Tick.mk 0 "a" "A.exe", Tick.mk 5 "b" "B.exe"] = pre ++ suf →
          ∀ e ∈ (trackSteps initialState pre).appUsageList, e.Start ≤ e.End) ∧
        (∀ pre t suf,
          [Tick.mk 0 "a" "A.exe", Tick.mk 5 "b" "B.exe"] = pre ++ t :: suf →
          ∀ (i : Nat) (e e' : AppUsageEntry),
            (trackSteps initialState pre).appUsageList[i]? = some e →
            (trackSteps initialState (pre ++ [t])).appUsageList[i]? = some e' →
            e.End ≤ e'.End)) :=
  ⟨by decide, c4_start_le_end_and_end_mono _ (by decide)⟩

/-- C5: `saveAppUsageToFile` returns an error exactly when the list is
non-empty and either serialization of the session log or the write of its
file fails; and the outcome of the Steam account-identifier step — both the
result of `buildSteamInfo` and the result of the `steaminfo.json` write —
changes neither the returned error nor whether the primary session-log
write is performed. -/
theorem c5_flush_error_only_primary :
    (∀ (l : List AppUsageEntry) (env : SaveEnv),
        isErr (saveAppUsageToFile l env).2 = true ↔
          l ≠ [] ∧ (isErr env.marshalResult = true ∨
            isErr env.writeSessionLogResult = true)) ∧
      ∀ (l : List AppUsageEntry) (env : SaveEnv)
        (sb : Except String String) (sw : Except String Unit),
        (saveAppUsageToFile l
            { env with buildSteamInfoResult := sb, writeSteamInfoResult := sw }).2
          = (saveAppUsageToFile l env).2 ∧
        wroteSessionLog (saveAppUsageToFile l
            { env with buildSteamInfoResult := sb, writeSteamInfoResult := sw }).1
          = wroteSessionLog (saveAppUsageToFile l env).1 := by
  constructor
  · intro l env
    by_cases hl : l = []
    · simp [saveAppUsageToFile, hl, isErr]
    · cases hm : env.marshalResult with
      | error e => simp [saveAppUsageToFile, hl, hm, isErr]
      | ok d =>
        cases hw : env.writeSessionLogResult with
        | error e => simp [saveAppUsageToFile, hl, hm, hw, isErr]
        | ok u => simp [saveAppUsageToFile, hl, hm, hw, isErr]
  · intro l env sb sw
    by_cases hl : l = []
    · simp [saveAppUsageToFile, hl]
    · cases hm : env.marshalResult with
      | error e =>
        constructor
        · simp [saveAppUsageToFile, hl, hm]
        · cases sb <;> cases hb : env.buildSteamInfoResult <;>
            simp [saveAppUsageToFile, hl, hm, hb, wroteSessionLog]
      | ok d =>
        constructor
        · simp [saveAppUsageToFile, hl, hm]
        · cases sb <;> cases hb : env.buildSteamInfoResult <;>
            simp [saveAppUsageToFile, hl, hm, hb, wroteSessionLog]

/-- C6: calling the flush with an empty session list performs no file write
at all (not even the Steam-info one) and returns success. -/
theorem c6_flush_empty_noop (env : SaveEnv) :
    saveAppUsageToFile [] env = ([], Except.ok ()) := rfl

/-- C7: when the configuration-file content has zero well-formed record
blocks — `regexp.FindAllStringSubmatch` returns the `nil` slice, the
`none` argument of the embedding — `extractUsers` returns the empty user
list and no error. -/
theorem c7_extract_zero_blocks_ok :
    extractUsers none = Except.ok [] := rfl

/-- C8: when `GetForegroundWindow` reports no foreground window (it returns
a zero window handle, with errno `ERROR_SUCCESS`), both inspector
operations return the empty string with no error. -/
theorem c8_no_foreground_window (env : WinApiEnv)
    (h0 : env.gfwErrno = 0) (h1 : env.gfwResult = 0) :
    getActiveWindowExecutablePath env = Except.ok "" ∧
      getForegroundWindowText env = Except.ok "" := by
  constructor
  · simp [getActiveWindowExecutablePath, h0, h1]
  · simp [getForegroundWindowText, h0, h1]

/-- A concrete call environment in which the OS reports no foreground
window. -/
def winEnvNoWindow : WinApiEnv :=
  { gfwResult := 0, gfwErrno := 0, gwtpidResult := 0, gwtpidErrno := 0,
    openProcessResult := Except.ok 0, qfpinRet := 0, qfpinErrno := 0,
    qfpinBuffer := "", fallbackRet := 0, fallbackErrno := 0,
    fallbackBuffer := "", gwtLenRet := 0, gwtLenErrno := 0, gwtRet := 0,
    gwtErrno := 0, gwtBuffer := "" }

/-- Witness for C8 at the concrete environment `winEnvNoWindow`. -/
theorem c8_no_foreground_window_witness :
    winEnvNoWindow.gfwErrno = 0 ∧ winEnvNoWindow.gfwResult = 0 ∧
      (getActiveWindowExecutablePath winEnvNoWindow = Except.ok "" ∧
        getForegroundWindowText winEnvNoWindow = Except.ok "") :=
  ⟨rfl, rfl, c8_no_foreground_window winEnvNoWindow rfl rfl⟩

/-- C9: a second detach immediately after a detach, with no intervening
ticks, obtains the empty sequence — both after a bare `detachAll` and after
a full detach-then-flush — so no session can be handed to the writer
twice. -/
theorem c9_detach_idempotent (s : TrackerState) (env : SaveEnv) :
    (detachAll (detachAll s).2).1 = [] ∧
      (detachAll (detachAndSave s env).1).1 = [] :=
  ⟨rfl, rfl⟩

/-- C10: when the flush of a detach-then-save fails, the in-memory list was
already cleared in the critical section and the failed entries are never
re-added: the state after the save has an empty session list, and every
entry found in memory after any sequence of further ticks was created by
one of those ticks (it carries that tick's title, executable path and start
time). -/
theorem c10_failed_save_discards (s : TrackerState) (env : SaveEnv)
    (_h : isErr (detachAndSave s env).2.2 = true) :
    (detachAndSave s env).1.appUsageList = [] ∧
      ∀ (ts : List Tick), ∀ e ∈ (trackSteps (detachAndSave s env).1 ts).appUsageList,
        ∃ t ∈ ts, e.AppName = t.title ∧ e.ExecutablePath = t.exePath ∧
          e.Start = t.now := by
  refine ⟨rfl, ?_⟩
  intro ts e he
  rcases trackSteps_mem ts (detachAndSave s env).1 he with ⟨e₀, he₀, _⟩ | hnew
  · have hempty : (detachAndSave s env).1.appUsageList = [] := rfl
    rw [hempty] at he₀
    simp at he₀
  · exact hnew

/-- A concrete tracker state holding one session, about to be saved. -/
def failSaveState : TrackerState :=
  { appUsageList := [⟨"a", "A.exe", 0, 5⟩], lastExePath := "A.exe" }

/-- A concrete save environment in which the primary session-log write
fails. -/
def failSaveEnv : SaveEnv :=
  { executableResult := Except.ok "C:/agent",
    buildSteamInfoResult := Except.error "no registry key",
    writeSteamInfoResult := Except.ok (),
    marshalResult := Except.ok "serialized",
    nowFormatted := "20250101_000000",
    writeSessionLogResult := Except.error "disk full" }

/-- Witness for C10 at the concrete state and failing environment. -/
theorem c10_failed_save_discards_witness :
    isErr (detachAndSave failSaveState failSaveEnv).2.2 = true ∧
      ((detachAndSave failSaveState failSaveEnv).1.appUsageList = [] ∧
        ∀ (ts : List Tick),
          ∀ e ∈ (trackSteps (detachAndSave failSaveState failSaveEnv).1 ts).appUsageList,
          ∃ t ∈ ts, e.AppName = t.title ∧ e.ExecutablePath = t.exePath ∧
            e.Start = t.now) :=
  ⟨rfl, c10_failed_save_discards failSaveState failSaveEnv rfl⟩
